import Mathlib

/-
  Verification development for the mocopi UDP-to-WebSocket relay server
  (LocalServerExample/server.py).

  Modelling conventions (shallow embedding):
  * A byte buffer is a `List Nat` (each entry a byte value 0..255).
  * Python `bytes.find(marker, start)` is modelled by `find_chunk_from`
    (first match at or after `start`, `none` when absent) and `pyFind`
    (the Python integer result, -1 when absent).
  * Python slicing `data[a:b]` (including the negative-index wrap-around)
    is modelled by `pySlice`.
  * `struct.unpack` of fewer than the required bytes raises in Python;
    here the read functions return `none` in that case, and the callers
    propagate the `none` exactly where the Python exception handlers sit.
  * IEEE-754 single-precision floats are represented by their 32-bit
    little-endian bit pattern (a `Nat` below 2^32).  The only float
    operation the decoder performs is unary negation, which at the bit
    level is exactly a flip of the sign bit, modelled by `negF32`.
    `F32_ONE` is the bit pattern of the float 1.0.
  * `struct.unpack("<i", ...)` yields a signed 32-bit value, modelled by
    `toInt32` applied to the little-endian word.
  * Wall-clock timestamps and logging are I/O and are not modelled; no
    claim depends on them.
-/

set_option maxRecDepth 40000
set_option maxHeartbeats 4000000

namespace Mocopi

/-! ## Byte-level primitives -/

/-- Normalise a Python slice index: negative indices count from the end
(clamped at 0), nonnegative indices are clamped at the length. -/
def pyIdx (len : Nat) (i : Int) : Nat :=
  if i < 0 then ((len : Int) + i).toNat else min i.toNat len

/-- Python slice `data[a:b]`. -/
def pySlice (data : List Nat) (a b : Int) : List Nat :=
  (data.take (pyIdx data.length b)).drop (pyIdx data.length a)

/-- Assemble a little-endian 32-bit word from a 4-byte list. -/
def word32 (s : List Nat) : Nat :=
  s.getD 0 0 + 256 * s.getD 1 0 + 65536 * s.getD 2 0 + 16777216 * s.getD 3 0

/-- Interpret a 32-bit word as a signed two-complement value
(the result of struct.unpack with format <i). -/
def toInt32 (w : Nat) : Int :=
  if w < 2147483648 then (w : Int) else (w : Int) - 4294967296

/-- MocopiParser.read_int32_le: read a little-endian int32 at `offset`;
`none` models the struct.error raised when fewer than 4 bytes remain. -/
def read_int32_le (data : List Nat) (offset : Int) : Option Int :=
  let s := pySlice data offset (offset + 4)
  if s.length = 4 then some (toInt32 (word32 s)) else none

/-- MocopiParser.read_float_le: read the 4 bytes at `offset` as the bit
pattern of a little-endian binary32 float; `none` models struct.error. -/
def read_float_le (data : List Nat) (offset : Int) : Option Nat :=
  let s := pySlice data offset (offset + 4)
  if s.length = 4 then some (word32 s) else none

/-- Flip the IEEE-754 sign bit: the bit-level effect of Python unary
minus on the float decoded from this word. -/
def negF32 (w : Nat) : Nat :=
  if w < 2147483648 then w + 2147483648 else w - 2147483648

/-- Bit pattern of the single-precision float 1.0. -/
def F32_ONE : Nat := 1065353216

/-- Helper for `bytes.find`: scan the remaining list, returning the
absolute index of the first position where `m` is a prefix. -/
def findAux (m : List Nat) : List Nat → Nat → Option Nat
  | [], _ => none
  | a :: t, i => if (a :: t).take m.length = m then some i else findAux m t (i + 1)

/-- Python `data.find(m, start)` returning an `Option` index. -/
def find_chunk_from (data m : List Nat) (start : Nat) : Option Nat :=
  findAux m (data.drop start) start

/-- Python `data.find(m, start)` with the -1-for-absent convention. -/
def pyFind (data m : List Nat) (start : Nat) : Int :=
  match find_chunk_from data m start with
  | none => -1
  | some i => (i : Int)

/-- The marker `m` occurs in `data` at offset `i`. -/
def occursAt (data m : List Nat) (i : Nat) : Prop :=
  (data.drop i).take m.length = m

instance occursAt.decidable (data m : List Nat) (i : Nat) :
    Decidable (occursAt data m i) :=
  inferInstanceAs (Decidable ((data.drop i).take m.length = m))

/-- The marker occurs in the buffer and its first occurrence is at a
strictly positive offset (equivalently: it occurs somewhere, but not at
offset 0). -/
def posOccursFirst (data m : List Nat) : Prop :=
  (∃ i, occursAt data m i) ∧ ¬ occursAt data m 0

/-! ## Wire format model: markers, bone-name table, canonical parents -/

/-- ASCII bytes of the marker skdf (skeleton definition). -/
def SKDF : List Nat := [115, 107, 100, 102]
/-- ASCII bytes of the marker fram (frame container). -/
def FRAM : List Nat := [102, 114, 97, 109]
/-- ASCII bytes of the marker btrs (bone transforms container). -/
def BTRS : List Nat := [98, 116, 114, 115]
/-- ASCII bytes of the marker btdt (bone data). -/
def BTDT : List Nat := [98, 116, 100, 116]
/-- ASCII bytes of the marker frid (frame id). -/
def FRID : List Nat := [102, 114, 105, 100]
/-- ASCII bytes of the marker time (timestamp). -/
def TIMEM : List Nat := [116, 105, 109, 101]
/-- ASCII bytes of the marker tran (transform block). -/
def TRAN : List Nat := [116, 114, 97, 110]

/-- The 27 mocopi bone names, in index order. -/
def BONE_NAMES : List String :=
  ["root", "torso_1", "torso_2", "torso_3", "torso_4", "torso_5", "torso_6", "torso_7",
   "neck_1", "neck_2", "head",
   "l_shoulder", "l_up_arm", "l_low_arm", "l_hand",
   "r_shoulder", "r_up_arm", "r_low_arm", "r_hand",
   "l_up_leg", "l_low_leg", "l_foot", "l_toes",
   "r_up_leg", "r_low_leg", "r_foot", "r_toes"]

/-- Positional bone name, with the bone_i fallback of the source. -/
def boneNameAt (i : Nat) : String :=
  BONE_NAMES.getD i ("bone_" ++ toString i)

/-- MocopiParser._get_parent_bone_id: the canonical parent table, with
the dict-get default of -1. -/
def get_parent_bone_id (i : Int) : Int :=
  if i = 0 then -1
  else if i = 1 then 0 else if i = 2 then 1 else if i = 3 then 2
  else if i = 4 then 3 else if i = 5 then 4 else if i = 6 then 5
  else if i = 7 then 6
  else if i = 8 then 7 else if i = 9 then 8 else if i = 10 then 9
  else if i = 11 then 6 else if i = 12 then 11 else if i = 13 then 12
  else if i = 14 then 13
  else if i = 15 then 6 else if i = 16 then 15 else if i = 17 then 16
  else if i = 18 then 17
  else if i = 19 then 0 else if i = 20 then 19 else if i = 21 then 20
  else if i = 22 then 21
  else if i = 23 then 0 else if i = 24 then 23 else if i = 25 then 24
  else if i = 26 then 25
  else -1

/-! ## Data model -/

/-- A quaternion, each component the bit pattern of a binary32 float. -/
structure Quat where
  x : Nat
  y : Nat
  z : Nat
  w : Nat
  deriving DecidableEq

/-- A 3-vector, each component the bit pattern of a binary32 float. -/
structure Vec3 where
  x : Nat
  y : Nat
  z : Nat
  deriving DecidableEq

/-- A bone entry of a skeleton snapshot. -/
structure Bone where
  id : Int
  name : String
  parent_id : Int
  rotation : Quat
  position : Vec3
  deriving DecidableEq

/-- A skeleton snapshot (the timestamp field of the source is wall-clock
I/O and is not modelled). -/
structure SkeletonSnapshot where
  ptype : String
  num_bones : Nat
  bones : List Bone
  deriving DecidableEq

/-- A bone entry of a frame snapshot (no parent field). -/
structure FrameBone where
  id : Nat
  name : String
  rotation : Quat
  position : Vec3
  deriving DecidableEq

/-- A frame snapshot.  `raw_data`, `data_length` and `parse_note` model
the diagnostic keys attached when no bone transforms were extracted
(the source base64-encodes the raw buffer; here it is kept as bytes). -/
structure FrameSnapshot where
  ptype : String
  frame_id : Int
  mocopi_time : Option Nat
  bones : List FrameBone
  raw_data : Option (List Nat)
  data_length : Option Nat
  parse_note : Option String
  deriving DecidableEq

/-! ## Packet Classifier -/

/-- MocopiParser.detect_packet_type. -/
def detect_packet_type (data : List Nat) : String :=
  if 0 < pyFind data SKDF 0 then "skeleton"
  else if 0 < pyFind data FRAM 0 ∨ 0 < pyFind data BTRS 0 then "frame"
  else if 1200 < data.length then "skeleton"
  else "frame"

/-! ## Skeleton Decoder -/

/-- Parse one 36-byte bone record at `off` (positional index `i`):
bone_id(i32), parent_id(i32), rotation(4 floats), position(3 floats),
with the out-of-range substitutions of the source.  `none` models a
struct.error while reading. -/
def mkSkelRecord (data : List Nat) (off i : Nat) : Option Bone := do
  let bid ← read_int32_le data (off : Int)
  let pid ← read_int32_le data ((off + 4 : Nat) : Int)
  let rx ← read_float_le data ((off + 8 : Nat) : Int)
  let ry ← read_float_le data ((off + 12 : Nat) : Int)
  let rz ← read_float_le data ((off + 16 : Nat) : Int)
  let rw ← read_float_le data ((off + 20 : Nat) : Int)
  let px ← read_float_le data ((off + 24 : Nat) : Int)
  let py ← read_float_le data ((off + 28 : Nat) : Int)
  let pz ← read_float_le data ((off + 32 : Nat) : Int)
  pure { id := if bid < 27 then bid else (i : Int),
         name := boneNameAt i,
         parent_id := if -1 ≤ pid ∧ pid < 27 then pid else get_parent_bone_id (i : Int),
         rotation := ⟨rx, ry, rz, rw⟩,
         position := ⟨px, py, pz⟩ }

/-- The record-reading loop of parse_skeleton_definition: up to `fuel`
records (27 in the source), stopping early when fewer than 36 bytes
remain; a read failure truncates the list exactly where the except
handler of the source keeps the bones appended so far. -/
def btdtLoop (data : List Nat) : Nat → Nat → Nat → List Bone
  | 0, _, _ => []
  | fuel + 1, off, i =>
    if data.length < off + 36 then []
    else
      match mkSkelRecord data off i with
      | some b => b :: btdtLoop data fuel (off + 36) (i + 1)
      | none => []

/-- The bones read from the btdt chunk: empty when the marker is not
found at a strictly positive offset, or when the chunk-size read at
(marker offset - 4) raises. -/
def btdt_bones (data : List Nat) : List Bone :=
  match find_chunk_from data BTDT 0 with
  | none => []
  | some p =>
    if 0 < p then
      match read_int32_le data ((p : Int) - 4) with
      | some _ => btdtLoop data 27 (p + 4) 0
      | none => []
    else []

/-- The synthesized default bone at index `i`: identity rotation
(0,0,0,1), zero position, canonical parent. -/
def defaultBone (i : Nat) : Bone :=
  { id := (i : Int), name := boneNameAt i,
    parent_id := get_parent_bone_id (i : Int),
    rotation := ⟨0, 0, 0, F32_ONE⟩, position := ⟨0, 0, 0⟩ }

/-- The 27 synthesized default bones. -/
def defaultBones : List Bone := (List.range 27).map defaultBone

/-- MocopiParser.parse_skeleton_definition: keep the parsed bones only
when all 27 were produced, otherwise discard them and synthesize the
canonical skeleton. -/
def parse_skeleton_definition (data : List Nat) : SkeletonSnapshot :=
  let bs := btdt_bones data
  { ptype := "skeleton_definition", num_bones := 27,
    bones := if bs.length < 27 then defaultBones else bs }

/-! ## Frame Decoder -/

/-- Parse the 28-byte transform block that starts 4 bytes after the tran
marker at `p` (positional index `i`): rotation(x,y,z,w) then
position(x,y,z), with the coordinate conversion negating rotation x and
w and position x. -/
def mkFrameBone (data : List Nat) (p i : Nat) : Option FrameBone := do
  let o := p + 4
  let rx ← read_float_le data (o : Int)
  let ry ← read_float_le data ((o + 4 : Nat) : Int)
  let rz ← read_float_le data ((o + 8 : Nat) : Int)
  let rw ← read_float_le data ((o + 12 : Nat) : Int)
  let px ← read_float_le data ((o + 16 : Nat) : Int)
  let py ← read_float_le data ((o + 20 : Nat) : Int)
  let pz ← read_float_le data ((o + 24 : Nat) : Int)
  pure { id := i, name := boneNameAt i,
         rotation := ⟨negF32 rx, ry, rz, negF32 rw⟩,
         position := ⟨negF32 px, py, pz⟩ }

/-- The tran-marker collection loop: find the next tran marker from the
search cursor, stop when none is found or the marker sits at or beyond
length - 28, advance the cursor 32 bytes past each match. -/
def tranScanLoop (data : List Nat) : Nat → Nat → List Nat
  | 0, _ => []
  | fuel + 1, s =>
    match find_chunk_from data TRAN s with
    | none => []
    | some p =>
      if data.length ≤ p + 28 then []
      else p :: tranScanLoop data fuel (p + 32)

/-- All recorded tran-marker positions: the scan starts at the btrs
marker and only runs when that marker is at a strictly positive
offset. -/
def tran_positions (data : List Nat) : List Nat :=
  match find_chunk_from data BTRS 0 with
  | none => []
  | some bp => if 0 < bp then tranScanLoop data (data.length + 1) bp else []

/-- The per-position emission loop: hard cap of 27 bones, stop when the
28 data bytes would overrun the buffer; a read failure truncates the
list where the except handler of the source keeps the bones so far. -/
def emitLoop (data : List Nat) : List Nat → Nat → List FrameBone
  | [], _ => []
  | p :: rest, i =>
    if 27 ≤ i then []
    else if data.length < p + 4 + 28 then []
    else
      match mkFrameBone data p i with
      | some b => b :: emitLoop data rest (i + 1)
      | none => []

/-- MocopiParser.parse_frame_data.  `counter` is the value of the
process-wide frame counter before this decode; the result pairs the
snapshot with the incremented counter.  The frid and time guards mirror
the source; the `getD` fallbacks sit on unreachable branches (the
guards make the reads succeed). -/
def parse_frame_data (counter : Nat) (data : List Nat) : FrameSnapshot × Nat :=
  let c := counter + 1
  let fid : Int :=
    match find_chunk_from data FRID 0 with
    | none => (c : Int)
    | some p =>
      if 0 < p ∧ p + 8 ≤ data.length then
        (read_int32_le data ((p + 4 : Nat) : Int)).getD (c : Int)
      else (c : Int)
  let mt : Option Nat :=
    match find_chunk_from data TIMEM 0 with
    | none => none
    | some p =>
      if 0 < p ∧ p + 12 ≤ data.length then read_float_le data ((p + 8 : Nat) : Int)
      else none
  let bs := emitLoop data (tran_positions data) 0
  ({ ptype := "frame_data", frame_id := fid, mocopi_time := mt, bones := bs,
     raw_data := if bs = [] then some data else none,
     data_length := if bs = [] then some data.length else none,
     parse_note := if bs = [] then some "Could not extract bone transforms" else none },
   c)

/-! ## Subscriber Broadcaster -/

/-- The send loop of broadcast_to_clients: every client is attempted in
turn; `ok c` tells whether the send to `c` succeeds.  Returns the list
of clients that received the message and the list collected in the
disconnected set. -/
def sendLoop (ok : Nat → Bool) : List Nat → List Nat × List Nat
  | [] => ([], [])
  | c :: rest =>
    let r := sendLoop ok rest
    if ok c then (c :: r.1, r.2) else (r.1, c :: r.2)

/-- broadcast_to_clients: early return on an empty subscriber set;
otherwise run the full send pass, then discard every failed subscriber
from the set (removal strictly after the iteration).  Returns the list
of clients that received the message and the subscriber set after the
pass. -/
def broadcast_to_clients (clients : List Nat) (ok : Nat → Bool) :
    List Nat × List Nat :=
  if clients.isEmpty then ([], clients)
  else
    let r := sendLoop ok clients
    (r.1, r.2.foldl (fun cs c => cs.filter (fun x => x ≠ c)) clients)

/-! ## Relay State: replay on subscriber connect -/

/-- A message replayed to a newly connected subscriber. -/
inductive ReplayMsg where
  | skel (s : SkeletonSnapshot)
  | frame (f : FrameSnapshot)
  deriving DecidableEq

/-- The on-connect replay of handle_websocket: the cached skeleton
snapshot (if any) followed by the cached frame snapshot (if any). -/
def on_connect_replay (ls : Option SkeletonSnapshot) (lf : Option FrameSnapshot) :
    List ReplayMsg :=
  (match ls with
   | some s => [ReplayMsg.skel s]
   | none => []) ++
  (match lf with
   | some f => [ReplayMsg.frame f]
   | none => [])

/-! ## Tree predicate for the skeleton hierarchy -/

/-- Follow parent links from node `i` for at most `fuel` steps, checking
that the walk reaches node 0; every step must stay inside [0, 27). -/
def reaches_root (bs : List Bone) : Nat → Nat → Bool
  | 0, i => i == 0
  | fuel + 1, i =>
    if i = 0 then true
    else
      match bs.get? i with
      | none => false
      | some b =>
        if 0 ≤ b.parent_id ∧ b.parent_id < 27 then
          reaches_root bs fuel b.parent_id.toNat
        else false

/-- The parent_id fields of a 27-bone list form a single tree rooted at
the bone at index 0 with no cycles: the root has parent -1 and every
node reaches the root by following parents (each inside [0, 27)). -/
def isSkeletonTreeB (bs : List Bone) : Bool :=
  bs.length == 27 &&
  ((bs.get? 0).map Bone.parent_id == some (-1)) &&
  (List.range 27).all (fun i => reaches_root bs 27 i)

/-! ## Concrete example buffers -/

/-- Little-endian 4-byte encoding of a value below 2^32. -/
def le32n (n : Nat) : List Nat :=
  [n % 256, n / 256 % 256, n / 65536 % 256, n / 16777216 % 256]

/-- A well-formed 36-byte bone record whose parent links form a cycle
between positions 0 and 1: record 0 carries parent 1, all others carry
parent 0; every field is inside the accepted ranges. -/
def cycleRec (i : Nat) : List Nat :=
  le32n i ++ le32n (if i = 0 then 1 else 0) ++ List.replicate 28 0

/-- 980-byte packet: 4 chunk-size bytes, the btdt marker at offset 4,
then 27 complete bone records whose in-range parent ids form a cycle. -/
def exC1 : List Nat := [0, 0, 0, 0] ++ BTDT ++ ((List.range 27).map cycleRec).flatten

/-- A 36-byte bone record; record 0 carries the raw bone_id -1
(bytes 255 255 255 255), the others carry their own index. -/
def negIdRec (i : Nat) : List Nat :=
  (if i = 0 then [255, 255, 255, 255] else le32n i) ++ le32n 0 ++ List.replicate 28 0

/-- 985-byte skeleton packet (skdf at offset 1): 4 chunk-size bytes,
btdt at offset 9, then 27 complete records, record 0 with bone_id -1. -/
def exC5 : List Nat :=
  [0] ++ SKDF ++ [0, 0, 0, 0] ++ BTDT ++ ((List.range 27).map negIdRec).flatten

/-- The skdf marker at offsets 0 and 4: the marker occurs at a strictly
positive offset, yet its first occurrence is offset 0. -/
def exC3 : List Nat := SKDF ++ SKDF

/-- An 8-byte frame-id chunk sitting at offset 0. -/
def exC9 : List Nat := FRID ++ [42, 0, 0, 0]

/-- An 8-byte frame-id chunk at the strictly positive offset 1 with
payload 42. -/
def wit9 : List Nat := [0] ++ FRID ++ [42, 0, 0, 0]

/-- btrs at offset 1 followed by three tran blocks of 28 zero bytes. -/
def wit2 : List Nat :=
  [0] ++ BTRS ++ (TRAN ++ List.replicate 28 0) ++ (TRAN ++ List.replicate 28 0)
  ++ (TRAN ++ List.replicate 28 0)

/-- The 1300-byte scenario of the spec: skdf at offset 50, no btdt. -/
def wit4 : List Nat := List.replicate 50 0 ++ SKDF ++ List.replicate 1246 0

/-- btdt at offset 1 followed by 972 bytes of well-formed (all-zero)
bone records. -/
def wit10 : List Nat := [0] ++ BTDT ++ List.replicate 972 0

/-- One complete record after btdt at offset 4: raw bone_id 30 (out of
range above) and raw parent_id 99 (out of range). -/
def wit5 : List Nat :=
  [0, 0, 0, 0] ++ BTDT ++ le32n 30 ++ le32n 99 ++ List.replicate 28 0

/-! ## Lemmas about the find primitive -/

lemma findAux_sound (m : List Nat) :
    ∀ (l : List Nat) (i j : Nat), findAux m l i = some j →
      i ≤ j ∧ (l.drop (j - i)).take m.length = m := by
  intro l
  induction l with
  | nil => intro i j h; simp [findAux] at h
  | cons a t ih =>
    intro i j h
    rw [findAux] at h
    by_cases hm : (a :: t).take m.length = m
    · rw [if_pos hm] at h
      cases h
      exact ⟨Nat.le_refl _, by simpa using hm⟩
    · rw [if_neg hm] at h
      obtain ⟨hij, hd⟩ := ih (i + 1) j h
      refine ⟨by omega, ?_⟩
      have hj : j - i = (j - (i + 1)) + 1 := by omega
      rw [hj]
      simpa using hd

lemma findAux_min (m : List Nat) :
    ∀ (l : List Nat) (i j : Nat), findAux m l i = some j →
      ∀ k, i ≤ k → k < j → (l.drop (k - i)).take m.length ≠ m := by
  intro l
  induction l with
  | nil => intro i j h; simp [findAux] at h
  | cons a t ih =>
    intro i j h k hik hkj
    rw [findAux] at h
    by_cases hm : (a :: t).take m.length = m
    · rw [if_pos hm] at h; cases h; omega
    · rw [if_neg hm] at h
      by_cases hk : k = i
      · subst hk; simpa using hm
      · have h1 : i + 1 ≤ k := by omega
        have hr : k - i = (k - (i + 1)) + 1 := by omega
        rw [hr]
        simpa using ih (i + 1) j h k h1 hkj

lemma findAux_none (m : List Nat) (hm : m ≠ []) :
    ∀ (l : List Nat) (i : Nat), findAux m l i = none →
      ∀ k, (l.drop k).take m.length ≠ m := by
  intro l
  induction l with
  | nil =>
    intro i _ k
    simp only [List.drop_nil, List.take_nil]
    exact Ne.symm hm
  | cons a t ih =>
    intro i h k
    rw [findAux] at h
    by_cases hmm : (a :: t).take m.length = m
    · rw [if_pos hmm] at h; exact absurd h (by simp)
    · rw [if_neg hmm] at h
      cases k with
      | zero => simpa using hmm
      | succ k => simpa using ih (i + 1) h k

lemma occursAt_rel (data m : List Nat) (s j : Nat) (hsj : s ≤ j) :
    occursAt data m j ↔ ((data.drop s).drop (j - s)).take m.length = m := by
  unfold occursAt
  rw [List.drop_drop]
  have h : s + (j - s) = j := by omega
  rw [h]

lemma find_chunk_sound (data m : List Nat) (s j : Nat)
    (h : find_chunk_from data m s = some j) : s ≤ j ∧ occursAt data m j := by
  obtain ⟨hsj, hd⟩ := findAux_sound m (data.drop s) s j h
  exact ⟨hsj, (occursAt_rel data m s j hsj).mpr hd⟩

lemma find_chunk_min (data m : List Nat) (s j : Nat)
    (h : find_chunk_from data m s = some j) :
    ∀ k, s ≤ k → k < j → ¬ occursAt data m k := by
  intro k hsk hkj hocc
  exact findAux_min m (data.drop s) s j h k hsk hkj
    ((occursAt_rel data m s k hsk).mp hocc)

lemma find_chunk_none (data m : List Nat) (hm : m ≠ []) (s : Nat)
    (h : find_chunk_from data m s = none) :
    ∀ k, s ≤ k → ¬ occursAt data m k := by
  intro k hsk hocc
  exact findAux_none m hm (data.drop s) s h (k - s)
    ((occursAt_rel data m s k hsk).mp hocc)

/-- The Python find result is strictly positive exactly when the marker
occurs somewhere but not at offset 0, i.e. when the first occurrence is
at a strictly positive offset. -/
lemma pyFind_pos_iff (data m : List Nat) (hm : m ≠ []) :
    0 < pyFind data m 0 ↔ (∃ i, occursAt data m i) ∧ ¬ occursAt data m 0 := by
  cases hf : find_chunk_from data m 0 with
  | none =>
    have hp : pyFind data m 0 = -1 := by unfold pyFind; rw [hf]
    rw [hp]
    constructor
    · intro h; exact absurd h (by norm_num)
    · rintro ⟨⟨i, hi⟩, _⟩
      exact absurd hi (find_chunk_none data m hm 0 hf i (Nat.zero_le i))
  | some j =>
    have hp : pyFind data m 0 = (j : Int) := by unfold pyFind; rw [hf]
    rw [hp]
    constructor
    · intro h
      have hj : 0 < j := by exact_mod_cast h
      obtain ⟨_, hocc⟩ := find_chunk_sound data m 0 j hf
      exact ⟨⟨j, hocc⟩, find_chunk_min data m 0 j hf 0 (Nat.le_refl 0) hj⟩
    · rintro ⟨⟨i, hi⟩, h0⟩
      have hocc := (find_chunk_sound data m 0 j hf).2
      have hne : j ≠ 0 := fun hz => h0 (hz ▸ hocc)
      exact_mod_cast Nat.pos_of_ne_zero hne

/-- An occurrence of a nonempty marker leaves room for the marker
bytes. -/
lemma occursAt_bound (data m : List Nat) (hm : m ≠ []) (j : Nat)
    (h : occursAt data m j) : j + m.length ≤ data.length := by
  unfold occursAt at h
  have hpos : 0 < m.length := List.length_pos.mpr hm
  have hl := congrArg List.length h
  simp [List.length_take, List.length_drop] at hl
  omega

/-! ## Lemmas about the byte reads -/

lemma pyIdx_natCast (len k : Nat) : pyIdx len (k : Int) = min k len := by
  unfold pyIdx
  split <;> omega

lemma pySlice_natCast_length (data : List Nat) (o : Nat) (h : o + 4 ≤ data.length) :
    (pySlice data (o : Int) ((o : Int) + 4)).length = 4 := by
  have h4 : ((o : Int) + 4) = ((o + 4 : Nat) : Int) := by push_cast; ring
  unfold pySlice
  rw [h4, pyIdx_natCast, pyIdx_natCast]
  simp [List.length_drop, List.length_take]
  omega

lemma read_float_le_some (data : List Nat) (o : Nat) (h : o + 4 ≤ data.length) :
    ∃ v, read_float_le data ((o : Nat) : Int) = some v := by
  refine ⟨word32 (pySlice data (o : Int) ((o : Int) + 4)), ?_⟩
  simp [read_float_le, pySlice_natCast_length data o h]

lemma read_int32_le_some (data : List Nat) (o : Nat) (h : o + 4 ≤ data.length) :
    ∃ v, read_int32_le data ((o : Nat) : Int) = some v := by
  refine ⟨toInt32 (word32 (pySlice data (o : Int) ((o : Int) + 4))), ?_⟩
  simp [read_int32_le, pySlice_natCast_length data o h]

/-! ## Characterization of the decoder loops -/

lemma btdtLoop_length (data : List Nat) (fuel : Nat) :
    ∀ off i, (btdtLoop data fuel off i).length ≤ fuel := by
  induction fuel with
  | zero => intro off i; simp [btdtLoop]
  | succ n ih =>
    intro off i
    rw [btdtLoop]
    split
    · simp
    · cases hr : mkSkelRecord data off i with
      | none => simp
      | some b0 =>
        simp only [List.length_cons]
        have := ih (off + 36) (i + 1)
        omega

/-- Unfolding equation: btdt marker absent. -/
lemma btdt_bones_eq_none (data : List Nat)
    (hf : find_chunk_from data BTDT 0 = none) : btdt_bones data = [] := by
  unfold btdt_bones; rw [hf]

/-- Unfolding equation: btdt marker found at `p`. -/
lemma btdt_bones_eq_some (data : List Nat) (p : Nat)
    (hf : find_chunk_from data BTDT 0 = some p) :
    btdt_bones data =
      if 0 < p then
        match read_int32_le data ((p : Int) - 4) with
        | some _ => btdtLoop data 27 (p + 4) 0
        | none => []
      else [] := by
  unfold btdt_bones; rw [hf]

lemma btdt_bones_length (data : List Nat) : (btdt_bones data).length ≤ 27 := by
  cases hf : find_chunk_from data BTDT 0 with
  | none => rw [btdt_bones_eq_none data hf]; simp
  | some p =>
    rw [btdt_bones_eq_some data p hf]
    by_cases h0 : 0 < p
    · rw [if_pos h0]
      cases hr : read_int32_le data ((p : Int) - 4) with
      | none => show ([] : List Bone).length ≤ 27; simp
      | some v =>
        show (btdtLoop data 27 (p + 4) 0).length ≤ 27
        exact btdtLoop_length data 27 (p + 4) 0
    · rw [if_neg h0]; simp

lemma btdtLoop_get (data : List Nat) (fuel : Nat) :
    ∀ off i j b, (btdtLoop data fuel off i).get? j = some b →
      mkSkelRecord data (off + 36 * j) (i + j) = some b := by
  induction fuel with
  | zero => intro off i j b h; simp [btdtLoop] at h
  | succ n ih =>
    intro off i j b h
    rw [btdtLoop] at h
    by_cases hlen : data.length < off + 36
    · rw [if_pos hlen] at h; simp at h
    · rw [if_neg hlen] at h
      cases hr : mkSkelRecord data off i with
      | none => rw [hr] at h; simp at h
      | some b0 =>
        rw [hr] at h
        have h2 : (b0 :: btdtLoop data n (off + 36) (i + 1)).get? j = some b := h
        cases j with
        | zero =>
          have hb : b0 = b := by simpa using h2
          subst hb
          simpa using hr
        | succ j =>
          have h3 : (btdtLoop data n (off + 36) (i + 1)).get? j = some b := by
            simpa using h2
          have hrec := ih (off + 36) (i + 1) j b h3
          have e1 : off + 36 + 36 * j = off + 36 * (j + 1) := by ring
          have e2 : i + 1 + j = i + (j + 1) := by ring
          rw [e1, e2] at hrec
          exact hrec

lemma emitLoop_length (data : List Nat) :
    ∀ (ps : List Nat) (i : Nat), (emitLoop data ps i).length ≤ 27 - i := by
  intro ps
  induction ps with
  | nil => intro i; simp [emitLoop]
  | cons p rest ih =>
    intro i
    rw [emitLoop]
    by_cases hi : 27 ≤ i
    · rw [if_pos hi]; simp
    · rw [if_neg hi]
      by_cases hlen : data.length < p + 4 + 28
      · rw [if_pos hlen]; simp
      · rw [if_neg hlen]
        cases hr : mkFrameBone data p i with
        | none => show ([] : List FrameBone).length ≤ 27 - i; simp
        | some b0 =>
          show (b0 :: emitLoop data rest (i + 1)).length ≤ 27 - i
          rw [List.length_cons]
          have hrec := ih (i + 1)
          omega

lemma emitLoop_get (data : List Nat) :
    ∀ (ps : List Nat) (i j : Nat) (b : FrameBone),
      (emitLoop data ps i).get? j = some b →
      ∃ p, ps.get? j = some p ∧ mkFrameBone data p (i + j) = some b := by
  intro ps
  induction ps with
  | nil => intro i j b h; simp [emitLoop] at h
  | cons p rest ih =>
    intro i j b h
    rw [emitLoop] at h
    by_cases hi : 27 ≤ i
    · rw [if_pos hi] at h; simp at h
    · rw [if_neg hi] at h
      by_cases hlen : data.length < p + 4 + 28
      · rw [if_pos hlen] at h; simp at h
      · rw [if_neg hlen] at h
        cases hr : mkFrameBone data p i with
        | none => rw [hr] at h; simp at h
        | some b0 =>
          rw [hr] at h
          have h2 : (b0 :: emitLoop data rest (i + 1)).get? j = some b := h
          cases j with
          | zero =>
            have hb : b0 = b := by simpa using h2
            subst hb
            exact ⟨p, by simp, by simpa using hr⟩
          | succ j =>
            have h3 : (emitLoop data rest (i + 1)).get? j = some b := by
              simpa using h2
            obtain ⟨q, hq, hmk⟩ := ih (i + 1) j b h3
            refine ⟨q, by simpa using hq, ?_⟩
            have e2 : i + 1 + j = i + (j + 1) := by ring
            rwa [e2] at hmk

lemma tranScanLoop_mem (data : List Nat) (fuel : Nat) :
    ∀ s p, p ∈ tranScanLoop data fuel s → occursAt data TRAN p := by
  induction fuel with
  | zero => intro s p h; simp [tranScanLoop] at h
  | succ n ih =>
    intro s p h
    rw [tranScanLoop] at h
    cases hf : find_chunk_from data TRAN s with
    | none => rw [hf] at h; simp at h
    | some q =>
      rw [hf] at h
      have h2 : p ∈ (if data.length ≤ q + 28 then []
          else q :: tranScanLoop data n (q + 32)) := h
      by_cases hq : data.length ≤ q + 28
      · rw [if_pos hq] at h2; simp at h2
      · rw [if_neg hq] at h2
        rcases List.mem_cons.mp h2 with rfl | hmem
        · exact (find_chunk_sound data TRAN s p hf).2
        · exact ih (q + 32) p hmem

lemma tran_positions_mem (data : List Nat) (p : Nat)
    (h : p ∈ tran_positions data) : occursAt data TRAN p := by
  unfold tran_positions at h
  cases hf : find_chunk_from data BTRS 0 with
  | none => rw [hf] at h; simp at h
  | some bp =>
    rw [hf] at h
    have h2 : p ∈ (if 0 < bp then tranScanLoop data (data.length + 1) bp
        else []) := h
    by_cases h0 : 0 < bp
    · rw [if_pos h0] at h2
      exact tranScanLoop_mem data (data.length + 1) bp p h2
    · rw [if_neg h0] at h2; simp at h2

/-! ## Lemmas about the broadcaster -/

lemma sendLoop_mem_ok (ok : Nat → Bool) :
    ∀ (cs : List Nat) (c : Nat), c ∈ cs → ok c = true → c ∈ (sendLoop ok cs).1 := by
  intro cs
  induction cs with
  | nil => intro c hc; simp at hc
  | cons a t ih =>
    intro c hc hok
    rcases List.mem_cons.mp hc with rfl | hmem
    · simp [sendLoop, hok]
    · by_cases hoa : ok a
      · simp only [sendLoop, hoa, if_true]
        exact List.mem_cons_of_mem a (ih c hmem hok)
      · simp only [sendLoop, hoa, if_false]
        exact ih c hmem hok

lemma sendLoop_mem_fail (ok : Nat → Bool) :
    ∀ (cs : List Nat) (c : Nat), c ∈ cs → ok c = false → c ∈ (sendLoop ok cs).2 := by
  intro cs
  induction cs with
  | nil => intro c hc; simp at hc
  | cons a t ih =>
    intro c hc hok
    rcases List.mem_cons.mp hc with rfl | hmem
    · simp [sendLoop, hok]
    · by_cases hoa : ok a
      · simp only [sendLoop, hoa, if_true]
        exact ih c hmem hok
      · simp only [sendLoop, hoa, if_false]
        exact List.mem_cons_of_mem a (ih c hmem hok)

lemma foldl_filter_subset :
    ∀ (ds cs : List Nat) (x : Nat),
      x ∈ ds.foldl (fun cs c => cs.filter (fun y => y ≠ c)) cs → x ∈ cs := by
  intro ds
  induction ds with
  | nil => intro cs x h; simpa using h
  | cons d dt ih =>
    intro cs x h
    rw [List.foldl_cons] at h
    exact List.mem_of_mem_filter (ih (cs.filter (fun y => y ≠ d)) x h)

lemma foldl_filter_not_mem :
    ∀ (ds cs : List Nat) (c : Nat), c ∈ ds →
      c ∉ ds.foldl (fun cs c => cs.filter (fun y => y ≠ c)) cs := by
  intro ds
  induction ds with
  | nil => intro cs c h; simp at h
  | cons d dt ih =>
    intro cs c hc hmem
    rcases List.mem_cons.mp hc with rfl | htail
    · rw [List.foldl_cons] at hmem
      have hin := foldl_filter_subset dt (cs.filter (fun y => y ≠ c)) c hmem
      simp [List.mem_filter] at hin
    · rw [List.foldl_cons] at hmem
      exact ih (cs.filter (fun y => y ≠ d)) c htail hmem

/-! ## Claim C1 -/

/-- Claim C1 as stated is false on the code: the Skeleton Decoder does
always return exactly 27 bones, but when 27 complete records with
in-range parent ids are parsed from the packet, those parent ids are
passed through unchanged and need not form a tree.  On the concrete
980-byte buffer exC1 the decoded parent ids contain the 2-cycle
0 <-> 1, so they do not form a tree rooted at bone 0. -/
theorem claim1_counterexample :
    (parse_skeleton_definition exC1).bones.length = 27 ∧
    isSkeletonTreeB (parse_skeleton_definition exC1).bones = false := by
  constructor <;> decide

/-- Claim C1, amended: for every input buffer the Skeleton Decoder
returns exactly 27 bones, and whenever fewer than 27 records were parsed
from the btdt chunk (in particular for empty or marker-free input) the
parent ids form a single tree rooted at bone 0 with no cycles; when 27
complete records are parsed their in-range parent ids are passed through
and the tree property is not guaranteed. -/
theorem claim1_theorem (data : List Nat) :
    (parse_skeleton_definition data).bones.length = 27 ∧
    ((btdt_bones data).length < 27 →
      isSkeletonTreeB (parse_skeleton_definition data).bones = true) := by
  by_cases h : (btdt_bones data).length < 27
  · constructor
    · show (if (btdt_bones data).length < 27 then defaultBones
          else btdt_bones data).length = 27
      rw [if_pos h]
      decide
    · intro _
      show isSkeletonTreeB (if (btdt_bones data).length < 27 then defaultBones
          else btdt_bones data) = true
      rw [if_pos h]
      decide
  · have h27 : (btdt_bones data).length = 27 :=
      Nat.le_antisymm (btdt_bones_length data) (Nat.le_of_not_lt h)
    constructor
    · show (if (btdt_bones data).length < 27 then defaultBones
          else btdt_bones data).length = 27
      rw [if_neg h]
      exact h27
    · intro hc
      exact absurd hc h

/-- Witness for claim C1 at the empty buffer: 27 bones whose parent ids
form the canonical tree. -/
theorem claim1_witness :
    (parse_skeleton_definition ([] : List Nat)).bones.length = 27 ∧
    isSkeletonTreeB (parse_skeleton_definition ([] : List Nat)).bones = true :=
  ⟨(claim1_theorem []).1, (claim1_theorem []).2 (by decide)⟩

/-! ## Claim C4 -/

/-- Claim C4: when the btdt marker is absent, or fewer than 27 valid
records were parsed, the Skeleton Decoder discards the partial bones and
returns the 27 synthesized bones with identity rotation (bit pattern of
(0,0,0,1.0)), zero position, and the canonical parent table; in
particular bone 11 has parent 6 and bone 23 has parent 0. -/
theorem claim4_theorem (data : List Nat)
    (h : find_chunk_from data BTDT 0 = none ∨ (btdt_bones data).length < 27) :
    (parse_skeleton_definition data).bones = defaultBones ∧
    ((parse_skeleton_definition data).bones.get? 11).map Bone.parent_id = some 6 ∧
    ((parse_skeleton_definition data).bones.get? 23).map Bone.parent_id = some 0 ∧
    ∀ b ∈ (parse_skeleton_definition data).bones,
      b.rotation = ⟨0, 0, 0, F32_ONE⟩ ∧ b.position = ⟨0, 0, 0⟩ ∧
      b.parent_id = get_parent_bone_id b.id := by
  have hlt : (btdt_bones data).length < 27 := by
    rcases h with hn | hlt
    · rw [btdt_bones_eq_none data hn]; decide
    · exact hlt
  have hb : (parse_skeleton_definition data).bones = defaultBones := by
    show (if (btdt_bones data).length < 27 then defaultBones
        else btdt_bones data) = defaultBones
    rw [if_pos hlt]
  rw [hb]
  exact ⟨rfl, by decide, by decide, by decide⟩

/-- Witness for claim C4 at the 1300-byte scenario buffer of the spec
(skdf at offset 50, no btdt marker). -/
theorem claim4_witness :
    (parse_skeleton_definition wit4).bones = defaultBones ∧
    ((parse_skeleton_definition wit4).bones.get? 11).map Bone.parent_id = some 6 ∧
    ((parse_skeleton_definition wit4).bones.get? 23).map Bone.parent_id = some 0 ∧
    ∀ b ∈ (parse_skeleton_definition wit4).bones,
      b.rotation = ⟨0, 0, 0, F32_ONE⟩ ∧ b.position = ⟨0, 0, 0⟩ ∧
      b.parent_id = get_parent_bone_id b.id :=
  claim4_theorem wit4 (Or.inl (by decide))

/-! ## Claim C10 -/

/-- Claim C10: when the first btdt occurrence is at offset 1, 2 or 3,
the chunk-size read at (marker offset - 4) hits the Python
negative-index wrap-around, yields an empty slice instead of 4 bytes and
raises, so the marker path fails and the decoder returns the fully
synthesized canonical skeleton, even when well-formed records follow. -/
theorem claim10_theorem (data : List Nat) (p : Nat)
    (hf : find_chunk_from data BTDT 0 = some p) (hp : p = 1 ∨ p = 2 ∨ p = 3) :
    read_int32_le data ((p : Int) - 4) = none ∧
    (parse_skeleton_definition data).bones = defaultBones := by
  have hlo : 1 ≤ p := by rcases hp with rfl | rfl | rfl <;> decide
  have hhi : p ≤ 3 := by rcases hp with rfl | rfl | rfl <;> decide
  have hocc := (find_chunk_sound data BTDT 0 p hf).2
  have hlen : p + 4 ≤ data.length := by
    have hb := occursAt_bound data BTDT (by decide) p hocc
    simpa [BTDT] using hb
  have hread : read_int32_le data ((p : Int) - 4) = none := by
    have hslice : (pySlice data ((p : Int) - 4) ((p : Int) - 4 + 4)).length = 0 := by
      unfold pySlice
      have e1 : (p : Int) - 4 + 4 = ((p : Nat) : Int) := by ring
      rw [e1, pyIdx_natCast]
      have e2 : pyIdx data.length ((p : Int) - 4) = data.length + p - 4 := by
        unfold pyIdx
        rw [if_pos (by omega : (p : Int) - 4 < 0)]
        omega
      rw [e2]
      simp [List.length_drop, List.length_take]
      omega
    have hne : ¬ (pySlice data ((p : Int) - 4) ((p : Int) - 4 + 4)).length = 4 := by
      rw [hslice]; decide
    show (if (pySlice data ((p : Int) - 4) ((p : Int) - 4 + 4)).length = 4
        then some (toInt32 (word32 (pySlice data ((p : Int) - 4) ((p : Int) - 4 + 4))))
        else none) = none
    rw [if_neg hne]
  have hbb : btdt_bones data = [] := by
    rw [btdt_bones_eq_some data p hf]
    rw [if_pos (by omega : 0 < p), hread]
  have hlt : (btdt_bones data).length < 27 := by rw [hbb]; decide
  refine ⟨hread, ?_⟩
  show (if (btdt_bones data).length < 27 then defaultBones
      else btdt_bones data) = defaultBones
  rw [if_pos hlt]

/-- Witness for claim C10: btdt at offset 1 followed by 972 bytes of
well-formed all-zero records still decodes to the canonical skeleton. -/
theorem claim10_witness :
    read_int32_le wit10 (((1 : Nat) : Int) - 4) = none ∧
    (parse_skeleton_definition wit10).bones = defaultBones :=
  claim10_theorem wit10 1 (by decide) (Or.inl rfl)

/-! ## Claim C7 -/

/-- Claim C7: in a broadcast pass, a failed send does not prevent
delivery to any other subscriber (every subscriber whose send succeeds
receives the message), every subscriber whose send fails is absent from
the subscriber set after the pass (removal happens after the iteration),
and a broadcast over the empty set performs zero sends and leaves the
set unchanged. -/
theorem claim7_theorem (clients : List Nat) (ok : Nat → Bool) :
    (∀ c ∈ clients, ok c = true → c ∈ (broadcast_to_clients clients ok).1) ∧
    (∀ c ∈ clients, ok c = false → c ∉ (broadcast_to_clients clients ok).2) ∧
    (clients = [] → (broadcast_to_clients clients ok).1 = [] ∧
      (broadcast_to_clients clients ok).2 = clients) := by
  refine ⟨?_, ?_, ?_⟩
  · intro c hc hok
    have hne : clients ≠ [] := List.ne_nil_of_mem hc
    have he : ¬ clients.isEmpty := by simpa [List.isEmpty_iff] using hne
    have h1 : (broadcast_to_clients clients ok).1 = (sendLoop ok clients).1 := by
      unfold broadcast_to_clients
      rw [if_neg he]
    rw [h1]
    exact sendLoop_mem_ok ok clients c hc hok
  · intro c hc hok hmem
    have hne : clients ≠ [] := List.ne_nil_of_mem hc
    have he : ¬ clients.isEmpty := by simpa [List.isEmpty_iff] using hne
    have h2 : (broadcast_to_clients clients ok).2 =
        (sendLoop ok clients).2.foldl
          (fun cs c => cs.filter (fun y => y ≠ c)) clients := by
      unfold broadcast_to_clients
      rw [if_neg he]
    rw [h2] at hmem
    exact foldl_filter_not_mem (sendLoop ok clients).2 clients c
      (sendLoop_mem_fail ok clients c hc hok) hmem
  · intro h
    subst h
    exact ⟨rfl, rfl⟩

/-- Witness for claim C7: with subscribers 5 and 7 where only the send
to 5 succeeds, 5 receives the message, 7 is absent from the set after
the pass, and broadcasting to the empty set is a no-op. -/
theorem claim7_witness :
    5 ∈ (broadcast_to_clients [5, 7] (fun c => c == 5)).1 ∧
    7 ∉ (broadcast_to_clients [5, 7] (fun c => c == 5)).2 ∧
    ((broadcast_to_clients [] (fun c => c == 5)).1 = [] ∧
      (broadcast_to_clients [] (fun c => c == 5)).2 = []) :=
  ⟨(claim7_theorem [5, 7] (fun c => c == 5)).1 5 (by decide) (by decide),
   (claim7_theorem [5, 7] (fun c => c == 5)).2.1 7 (by decide) (by decide),
   (claim7_theorem [] (fun c => c == 5)).2.2 rfl⟩

/-! ## Claim C8 -/

/-- Claim C8: a newly joined subscriber receives exactly the cached
snapshots that exist, skeleton first and then frame when both exist, one
message when only one exists, and none when neither exists. -/
theorem claim8_theorem (s : SkeletonSnapshot) (f : FrameSnapshot) :
    on_connect_replay (some s) (some f) = [ReplayMsg.skel s, ReplayMsg.frame f] ∧
    on_connect_replay (some s) none = [ReplayMsg.skel s] ∧
    on_connect_replay none (some f) = [ReplayMsg.frame f] ∧
    on_connect_replay (none : Option SkeletonSnapshot)
      (none : Option FrameSnapshot) = ([] : List ReplayMsg) :=
  ⟨rfl, rfl, rfl, rfl⟩

/-! ## Claim C3 -/

/-- Claim C3 as stated is false on the code: in the buffer exC3 the
skeleton-definition marker occurs at the strictly positive offset 4,
yet the classifier returns frame, because Python find reports the first
occurrence (offset 0) and the code only tests find > 0. -/
theorem claim3_counterexample :
    (∃ i, 0 < i ∧ occursAt exC3 SKDF i) ∧
    detect_packet_type exC3 = "frame" ∧
    detect_packet_type exC3 ≠ "skeleton" :=
  ⟨⟨4, by decide, by decide⟩, by decide, by decide⟩

/-- Claim C3, amended: the classifier returns skeleton if the FIRST
occurrence of skdf is at a strictly positive offset (the marker occurs,
but not at offset 0); otherwise frame if the first occurrence of fram or
of btrs is at a strictly positive offset; otherwise skeleton exactly
when the buffer is longer than 1200 bytes; classification is total. -/
theorem claim3_theorem (data : List Nat) :
    (posOccursFirst data SKDF → detect_packet_type data = "skeleton") ∧
    (¬ posOccursFirst data SKDF →
      (posOccursFirst data FRAM ∨ posOccursFirst data BTRS) →
      detect_packet_type data = "frame") ∧
    (¬ posOccursFirst data SKDF → ¬ posOccursFirst data FRAM →
      ¬ posOccursFirst data BTRS →
      (detect_packet_type data = "skeleton" ↔ 1200 < data.length)) ∧
    (detect_packet_type data = "skeleton" ∨ detect_packet_type data = "frame") := by
  have hs := pyFind_pos_iff data SKDF (by decide)
  have hf := pyFind_pos_iff data FRAM (by decide)
  have hb := pyFind_pos_iff data BTRS (by decide)
  refine ⟨?_, ?_, ?_, ?_⟩
  · intro h
    have hc : 0 < pyFind data SKDF 0 := hs.mpr h
    simp [detect_packet_type, hc]
  · intro h1 h2
    have hns : ¬ 0 < pyFind data SKDF 0 := fun hc => h1 (hs.mp hc)
    have hc : 0 < pyFind data FRAM 0 ∨ 0 < pyFind data BTRS 0 :=
      h2.imp hf.mpr hb.mpr
    simp [detect_packet_type, hns, hc]
  · intro h1 h2 h3
    have hns : ¬ 0 < pyFind data SKDF 0 := fun hc => h1 (hs.mp hc)
    have hnf : ¬ 0 < pyFind data FRAM 0 := fun hc => h2 (hf.mp hc)
    have hnb : ¬ 0 < pyFind data BTRS 0 := fun hc => h3 (hb.mp hc)
    have hd : detect_packet_type data =
        if 1200 < data.length then "skeleton" else "frame" := by
      unfold detect_packet_type
      rw [if_neg hns, if_neg (by tauto : ¬ (0 < pyFind data FRAM 0 ∨
        0 < pyFind data BTRS 0))]
    rw [hd]
    by_cases hl : 1200 < data.length
    · rw [if_pos hl]
      exact iff_of_true rfl hl
    · rw [if_neg hl]
      exact iff_of_false (by decide) hl
  · unfold detect_packet_type
    by_cases c1 : 0 < pyFind data SKDF 0
    · rw [if_pos c1]; exact Or.inl rfl
    · rw [if_neg c1]
      by_cases c2 : 0 < pyFind data FRAM 0 ∨ 0 < pyFind data BTRS 0
      · rw [if_pos c2]; exact Or.inr rfl
      · rw [if_neg c2]
        by_cases c3 : 1200 < data.length
        · rw [if_pos c3]; exact Or.inl rfl
        · rw [if_neg c3]; exact Or.inr rfl

/-- Witness for claim C3: skdf first at offset 1 classifies skeleton,
fram first at offset 1 classifies frame, and a 1201-byte marker-free
buffer classifies skeleton by the size fallback. -/
theorem claim3_witness :
    detect_packet_type ([0] ++ SKDF) = "skeleton" ∧
    detect_packet_type ([0] ++ FRAM) = "frame" ∧
    detect_packet_type (List.replicate 1201 0) = "skeleton" :=
  ⟨(claim3_theorem ([0] ++ SKDF)).1 ⟨⟨1, by decide⟩, by decide⟩,
   (claim3_theorem ([0] ++ FRAM)).2.1
     (fun h => absurd ((pyFind_pos_iff ([0] ++ FRAM) SKDF (by decide)).mpr h)
       (by decide))
     (Or.inl ⟨⟨1, by decide⟩, by decide⟩),
   ((claim3_theorem (List.replicate 1201 0)).2.2.1
     (fun h => absurd ((pyFind_pos_iff (List.replicate 1201 0) SKDF
       (by decide)).mpr h) (by decide))
     (fun h => absurd ((pyFind_pos_iff (List.replicate 1201 0) FRAM
       (by decide)).mpr h) (by decide))
     (fun h => absurd ((pyFind_pos_iff (List.replicate 1201 0) BTRS
       (by decide)).mpr h) (by decide))).mpr (by decide)⟩

/-! ## Claim C5 -/

/-- Claim C5 as stated is false on the code: in the skeleton packet exC5
the first parsed record carries the raw bone_id -1, which is outside
[0, 27), yet the emitted id is -1 and not the positional index 0 — the
code only substitutes the positional index when bone_id is at least 27,
negative ids pass through. -/
theorem claim5_counterexample :
    detect_packet_type exC5 = "skeleton" ∧
    find_chunk_from exC5 BTDT 0 = some 9 ∧
    read_int32_le exC5 ((13 : Nat) : Int) = some (-1) ∧
    ¬ ((0 : Int) ≤ -1) ∧
    ((parse_skeleton_definition exC5).bones.get? 0).map Bone.id = some (-1) ∧
    ((-1 : Int) ≠ ((0 : Nat) : Int)) :=
  ⟨by decide, by decide, by decide, by decide, by decide, by decide⟩

/-- Claim C5, amended: for every record parsed from the btdt chunk, the
emitted id is the raw bone_id whenever bone_id < 27 (negative values
included) and the positional index otherwise; the emitted parent_id is
the raw parent_id whenever it lies in [-1, 27) and the canonical parent
of the positional index otherwise. -/
theorem claim5_theorem (data : List Nat) (p j : Nat) (b : Bone)
    (hf : find_chunk_from data BTDT 0 = some p)
    (hb : (btdt_bones data).get? j = some b) :
    ∃ bid pid, read_int32_le data ((p + 4 + 36 * j : Nat) : Int) = some bid ∧
      read_int32_le data ((p + 4 + 36 * j + 4 : Nat) : Int) = some pid ∧
      b.id = (if bid < 27 then bid else (j : Int)) ∧
      b.parent_id = (if -1 ≤ pid ∧ pid < 27 then pid
        else get_parent_bone_id (j : Int)) := by
  rw [btdt_bones_eq_some data p hf] at hb
  by_cases h0 : 0 < p
  · rw [if_pos h0] at hb
    cases hr : read_int32_le data ((p : Int) - 4) with
    | none =>
      rw [hr] at hb
      have hb2 : ([] : List Bone).get? j = some b := hb
      simp at hb2
    | some v =>
      rw [hr] at hb
      have hb2 : (btdtLoop data 27 (p + 4) 0).get? j = some b := hb
      have hmk := btdtLoop_get data 27 (p + 4) 0 j b hb2
      rw [Nat.zero_add] at hmk
      simp only [mkSkelRecord, Option.bind_eq_bind, Option.bind_eq_some,
        Option.pure_def, Option.some.injEq] at hmk
      obtain ⟨bid, hbid, pid, hpid, rx, hrx, ry, hry, rz, hrz, rw0, hrw0,
        px, hpx, py, hpy, pz, hpz, hbeq⟩ := hmk
      refine ⟨bid, pid, hbid, hpid, ?_, ?_⟩
      · rw [← hbeq]
      · rw [← hbeq]
  · rw [if_neg h0] at hb
    have hb2 : ([] : List Bone).get? j = some b := hb
    simp at hb2

/-- Witness for claim C5 on a packet with one record carrying raw
bone_id 30 and raw parent_id 99: the emitted bone has id 0 and the
canonical parent -1. -/
theorem claim5_witness :
    ∃ bid pid, read_int32_le wit5 ((4 + 4 + 36 * 0 : Nat) : Int) = some bid ∧
      read_int32_le wit5 ((4 + 4 + 36 * 0 + 4 : Nat) : Int) = some pid ∧
      (⟨0, "root", -1, ⟨0, 0, 0, 0⟩, ⟨0, 0, 0⟩⟩ : Bone).id =
        (if bid < 27 then bid else ((0 : Nat) : Int)) ∧
      (⟨0, "root", -1, ⟨0, 0, 0, 0⟩, ⟨0, 0, 0⟩⟩ : Bone).parent_id =
        (if -1 ≤ pid ∧ pid < 27 then pid
          else get_parent_bone_id ((0 : Nat) : Int)) :=
  claim5_theorem wit5 4 0 ⟨0, "root", -1, ⟨0, 0, 0, 0⟩, ⟨0, 0, 0⟩⟩
    (by decide) (by decide)

/-! ## Claim C9 -/

/-- Equation for the frame_id of a decoded frame. -/
lemma parse_frame_frame_id (ctr : Nat) (data : List Nat) :
    (parse_frame_data ctr data).1.frame_id =
      match find_chunk_from data FRID 0 with
      | none => ((ctr + 1 : Nat) : Int)
      | some p =>
        if 0 < p ∧ p + 8 ≤ data.length then
          (read_int32_le data ((p + 4 : Nat) : Int)).getD ((ctr + 1 : Nat) : Int)
        else ((ctr + 1 : Nat) : Int) := rfl

/-- Claim C9 as stated is false on the code: exC9 is a classified-frame
buffer whose 8-byte frame-id chunk sits at offset 0 with payload 42, yet
the decoded frame_id is the incremented counter 1, because the code only
honours the chunk when its offset is strictly positive. -/
theorem claim9_counterexample :
    occursAt exC9 FRID 0 ∧ 0 + 8 ≤ exC9.length ∧
    read_int32_le exC9 ((0 + 4 : Nat) : Int) = some 42 ∧
    detect_packet_type exC9 = "frame" ∧
    (parse_frame_data 0 exC9).1.frame_id = 1 ∧ ((1 : Int) ≠ 42) :=
  ⟨by decide, by decide, by decide, by decide, by decide, by decide⟩

/-- Claim C9, amended: the decoded frame_id equals the little-endian
32-bit payload read 4 bytes after the frid marker whenever the FIRST
occurrence of frid is at a strictly positive offset and the 8-byte chunk
fits in the buffer; otherwise it equals the process-wide counter
incremented for this decode. -/
theorem claim9_theorem (ctr : Nat) (data : List Nat) :
    (∀ p, find_chunk_from data FRID 0 = some p → 0 < p → p + 8 ≤ data.length →
      ∃ v, read_int32_le data ((p + 4 : Nat) : Int) = some v ∧
        (parse_frame_data ctr data).1.frame_id = v) ∧
    ((∀ p, find_chunk_from data FRID 0 = some p →
        ¬ (0 < p ∧ p + 8 ≤ data.length)) →
      (parse_frame_data ctr data).1.frame_id = ((ctr + 1 : Nat) : Int)) := by
  constructor
  · intro p hp h0 h8
    obtain ⟨v, hv⟩ := read_int32_le_some data (p + 4) (by omega)
    refine ⟨v, hv, ?_⟩
    rw [parse_frame_frame_id, hp]
    show (if 0 < p ∧ p + 8 ≤ data.length then
        (read_int32_le data ((p + 4 : Nat) : Int)).getD ((ctr + 1 : Nat) : Int)
      else ((ctr + 1 : Nat) : Int)) = v
    rw [if_pos ⟨h0, h8⟩, hv]
    rfl
  · intro hno
    rw [parse_frame_frame_id]
    cases hp : find_chunk_from data FRID 0 with
    | none => rfl
    | some p =>
      show (if 0 < p ∧ p + 8 ≤ data.length then
          (read_int32_le data ((p + 4 : Nat) : Int)).getD ((ctr + 1 : Nat) : Int)
        else ((ctr + 1 : Nat) : Int)) = ((ctr + 1 : Nat) : Int)
      rw [if_neg (hno p hp)]

/-- Witness for claim C9: with frid at offset 1 the payload 42 is taken;
with no frid chunk the incremented counter 8 is taken. -/
theorem claim9_witness :
    (∃ v, read_int32_le wit9 ((1 + 4 : Nat) : Int) = some v ∧
      (parse_frame_data 7 wit9).1.frame_id = v) ∧
    (parse_frame_data 7 ([] : List Nat)).1.frame_id = ((7 + 1 : Nat) : Int) :=
  ⟨(claim9_theorem 7 wit9).1 1 (by decide) (by decide) (by decide),
   (claim9_theorem 7 []).2 (fun p hp => by
     rw [show find_chunk_from ([] : List Nat) FRID 0 = none from by decide] at hp
     exact Option.noConfusion hp)⟩

/-! ## Claim C2 -/

/-- Claim C2: the Frame Decoder returns at most 27 bones, and every
returned bone is read from a tran marker position: its rotation is the
sign-negated x and w and unchanged y and z, and its position the
sign-negated x and unchanged y and z, of the seven raw little-endian
binary32 words read starting 4 bytes after that tran marker. -/
theorem claim2_theorem (ctr : Nat) (data : List Nat) :
    (parse_frame_data ctr data).1.bones.length ≤ 27 ∧
    ∀ j b, (parse_frame_data ctr data).1.bones.get? j = some b →
      ∃ p, (tran_positions data).get? j = some p ∧ occursAt data TRAN p ∧
        ∃ wrx wry wrz wrw wpx wpy wpz,
          read_float_le data ((p + 4 : Nat) : Int) = some wrx ∧
          read_float_le data ((p + 8 : Nat) : Int) = some wry ∧
          read_float_le data ((p + 12 : Nat) : Int) = some wrz ∧
          read_float_le data ((p + 16 : Nat) : Int) = some wrw ∧
          read_float_le data ((p + 20 : Nat) : Int) = some wpx ∧
          read_float_le data ((p + 24 : Nat) : Int) = some wpy ∧
          read_float_le data ((p + 28 : Nat) : Int) = some wpz ∧
          b = ⟨j, boneNameAt j, ⟨negF32 wrx, wry, wrz, negF32 wrw⟩,
            ⟨negF32 wpx, wpy, wpz⟩⟩ := by
  have hbones : (parse_frame_data ctr data).1.bones =
      emitLoop data (tran_positions data) 0 := rfl
  constructor
  · rw [hbones]
    have hl := emitLoop_length data (tran_positions data) 0
    omega
  · intro j b hb
    rw [hbones] at hb
    obtain ⟨p, hp, hmk⟩ := emitLoop_get data (tran_positions data) 0 j b hb
    rw [Nat.zero_add] at hmk
    refine ⟨p, hp, tran_positions_mem data p (List.get?_mem hp), ?_⟩
    simp only [mkFrameBone, Option.bind_eq_bind, Option.bind_eq_some,
      Option.pure_def, Option.some.injEq] at hmk
    obtain ⟨wrx, hrx, wry, hry, wrz, hrz, wrw, hrw9, wpx, hpx, wpy, hpy,
      wpz, hpz, hbeq⟩ := hmk
    refine ⟨wrx, wry, wrz, wrw, wpx, wpy, wpz, hrx, ?_, ?_, ?_, ?_, ?_, ?_,
      hbeq.symm⟩
    · rw [show p + 8 = p + 4 + 4 from by ring]; exact hry
    · rw [show p + 12 = p + 4 + 8 from by ring]; exact hrz
    · rw [show p + 16 = p + 4 + 12 from by ring]; exact hrw9
    · rw [show p + 20 = p + 4 + 16 from by ring]; exact hpx
    · rw [show p + 24 = p + 4 + 20 from by ring]; exact hpy
    · rw [show p + 28 = p + 4 + 24 from by ring]; exact hpz

/-- Witness for claim C2 at the scenario buffer wit2 (btrs then three
tran blocks of zero bytes): bone 0 carries the sign-flipped zero word
2147483648 in rotation x and w and position x. -/
theorem claim2_witness :
    ∃ p, (tran_positions wit2).get? 0 = some p ∧ occursAt wit2 TRAN p ∧
      ∃ wrx wry wrz wrw wpx wpy wpz,
        read_float_le wit2 ((p + 4 : Nat) : Int) = some wrx ∧
        read_float_le wit2 ((p + 8 : Nat) : Int) = some wry ∧
        read_float_le wit2 ((p + 12 : Nat) : Int) = some wrz ∧
        read_float_le wit2 ((p + 16 : Nat) : Int) = some wrw ∧
        read_float_le wit2 ((p + 20 : Nat) : Int) = some wpx ∧
        read_float_le wit2 ((p + 24 : Nat) : Int) = some wpy ∧
        read_float_le wit2 ((p + 28 : Nat) : Int) = some wpz ∧
        (⟨0, "root", ⟨2147483648, 0, 0, 2147483648⟩,
          ⟨2147483648, 0, 0⟩⟩ : FrameBone) =
          ⟨0, boneNameAt 0, ⟨negF32 wrx, wry, wrz, negF32 wrw⟩,
            ⟨negF32 wpx, wpy, wpz⟩⟩ :=
  (claim2_theorem 0 wit2).2 0
    ⟨0, "root", ⟨2147483648, 0, 0, 2147483648⟩, ⟨2147483648, 0, 0⟩⟩
    (by decide)

/-! ## Claim C6 -/

/-- Claim C6: when no btrs marker is found at a strictly positive offset
or no tran blocks are collected after it, the Frame Decoder returns a
snapshot with an empty bones list, and every empty-bones snapshot
carries the raw buffer, its length, and the diagnostic note, with the
frame_data type intact — a degraded result, not an error. -/
theorem claim6_theorem (ctr : Nat) (data : List Nat) :
    ((¬ 0 < pyFind data BTRS 0 ∨ tran_positions data = []) →
      (parse_frame_data ctr data).1.bones = []) ∧
    ((parse_frame_data ctr data).1.bones = [] →
      (parse_frame_data ctr data).1.raw_data = some data ∧
      (parse_frame_data ctr data).1.data_length = some data.length ∧
      (parse_frame_data ctr data).1.parse_note =
        some "Could not extract bone transforms" ∧
      (parse_frame_data ctr data).1.ptype = "frame_data") := by
  have hbones : (parse_frame_data ctr data).1.bones =
      emitLoop data (tran_positions data) 0 := rfl
  refine ⟨?_, ?_⟩
  · intro h
    have htp : tran_positions data = [] := by
      rcases h with hn | htp0
      · unfold tran_positions
        cases hfb : find_chunk_from data BTRS 0 with
        | none => rfl
        | some bp =>
          have hpb : pyFind data BTRS 0 = (bp : Int) := by
            unfold pyFind; rw [hfb]
          have hnb : ¬ 0 < bp := by
            intro hbp
            apply hn
            rw [hpb]
            exact_mod_cast hbp
          show (if 0 < bp then tranScanLoop data (data.length + 1) bp
              else []) = []
          rw [if_neg hnb]
      · exact htp0
    rw [hbones, htp]
    rfl
  · intro hb
    have hbs : emitLoop data (tran_positions data) 0 = [] := by
      rw [← hbones]; exact hb
    refine ⟨?_, ?_, ?_, rfl⟩
    · show (if emitLoop data (tran_positions data) 0 = [] then some data
        else none) = some data
      rw [if_pos hbs]
    · show (if emitLoop data (tran_positions data) 0 = [] then some data.length
        else none) = some data.length
      rw [if_pos hbs]
    · show (if emitLoop data (tran_positions data) 0 = []
          then some "Could not extract bone transforms" else none) =
        some "Could not extract bone transforms"
      rw [if_pos hbs]

/-- Witness for claim C6 at the empty buffer: empty bones, raw buffer,
length and note attached, type frame_data. -/
theorem claim6_witness :
    (parse_frame_data 0 ([] : List Nat)).1.bones = [] ∧
    (parse_frame_data 0 ([] : List Nat)).1.raw_data = some [] ∧
    (parse_frame_data 0 ([] : List Nat)).1.data_length = some 0 ∧
    (parse_frame_data 0 ([] : List Nat)).1.parse_note =
      some "Could not extract bone transforms" ∧
    (parse_frame_data 0 ([] : List Nat)).1.ptype = "frame_data" := by
  have h1 := (claim6_theorem 0 []).1 (Or.inl (by decide))
  have h2 := (claim6_theorem 0 []).2 h1
  exact ⟨h1, h2.1, h2.2.1, h2.2.2.1, h2.2.2.2⟩

end Mocopi
